import Mathlib

/-!
Verification of the auto-close decision engine of `aws-securityhubv2-bot`.

The Go source is embedded shallowly: each Go function relevant to the spec's
claims becomes a Lean function of the same name, translated clause by clause
from the source (package `filters`: `filter.go`, the matcher helpers, the
rule model and the S3 rules loader; package `events`: `finding.go`; package
`app`: `ParseEvent`, `Process`, the rule aggregation in `New`). External
collaborators (the Security Hub close call, the Slack notifier, S3, the JSON
codec of the standard library) are modelled as explicit parameters so the
control flow of the repository's own code is what the theorems talk about.
-/

namespace SecBot

/-- `events.ResourceTag`: a name/value tag attached to a resource. -/
structure ResourceTag where
  name : String
  value : String
deriving DecidableEq, Repr

/-- `events.OCSFResource`: the fields of a finding's resource that the
matching engine reads (type, region, uid, name, tags). -/
structure OCSFResource where
  name : String
  region : String
  tags : List ResourceTag
  type : String
  uid : String
deriving DecidableEq, Repr

/-- `events.OCSFCompliance`: the compliance sub-record; only `status` is read
by the engine. -/
structure OCSFCompliance where
  status : String
deriving DecidableEq, Repr

/-- `events.MetadataProduct`: product block inside `metadata`. -/
structure MetadataProduct where
  name : String
deriving DecidableEq, Repr

/-- `events.Metadata`: finding metadata; the engine reads `product.name` and
`uid`. -/
structure Metadata where
  product : MetadataProduct
  uid : String
deriving DecidableEq, Repr

/-- The anonymous `account` struct inside `events.Cloud`. -/
structure CloudAccount where
  uid : String
deriving DecidableEq, Repr

/-- `events.Cloud`: cloud account and region of a finding. -/
structure Cloud where
  account : CloudAccount
  region : String
deriving DecidableEq, Repr

/-- `events.FindingInfo`: the engine reads the classification `types` list. -/
structure FindingInfo where
  types : List String
deriving DecidableEq, Repr

/-- `events.SecurityHubV2Finding`, restricted to the fields the decision
engine reads: status, severity, optional compliance, classification types,
product name, cloud account/region, and the resources list. -/
structure SecurityHubV2Finding where
  cloud : Cloud
  compliance : Option OCSFCompliance
  findingInfo : FindingInfo
  metadata : Metadata
  resources : List OCSFResource
  severity : String
  status : String
deriving DecidableEq, Repr

/-- `filters.ResourceTagFilter`: one required (name, value) pair. -/
structure ResourceTagFilter where
  name : String
  value : String
deriving DecidableEq, Repr

/-- `filters.RuleFilters`: the seven independently-optional filter
categories. -/
structure RuleFilters where
  findingTypes : List String
  severity : List String
  productName : List String
  resourceTypes : List String
  resourceTags : List ResourceTagFilter
  accounts : List String
  regions : List String
deriving DecidableEq, Repr

/-- `filters.RuleAction`: target status id and comment of an auto-close. -/
structure RuleAction where
  statusId : Int
  comment : String
deriving DecidableEq, Repr

/-- `filters.AutoCloseRule`: name, enabled flag, filters, action and the
skip-notification flag. -/
structure AutoCloseRule where
  name : String
  enabled : Bool
  filters : RuleFilters
  action : RuleAction
  skipNotification : Bool
deriving DecidableEq, Repr

/-- `filters.contains`: linear scan of a string slice for an item. -/
def contains (slice : List String) (item : String) : Bool :=
  slice.any (fun s => s == item)

/-- `filters.matchesFindingTypes`: some filter type equals some of the
finding's classification types. -/
def matchesFindingTypes (finding : SecurityHubV2Finding) (types : List String) : Bool :=
  types.any (fun filterType =>
    finding.findingInfo.types.any (fun findingType => findingType == filterType))

/-- `filters.matchesResourceTypes`: some resource of the finding has a type
equal to some filter entry. -/
def matchesResourceTypes (finding : SecurityHubV2Finding) (types : List String) : Bool :=
  finding.resources.any (fun resource =>
    types.any (fun filterType => resource.type == filterType))

/-- `filters.resourceHasAllTags`: every filter pair occurs among the
resource's tags. -/
def resourceHasAllTags (resourceTags : List ResourceTag) (tagFilters : List ResourceTagFilter) : Bool :=
  tagFilters.all (fun filterTag =>
    resourceTags.any (fun tag => tag.name == filterTag.name && tag.value == filterTag.value))

/-- `filters.matchesResourceTags`: a finding with no resources never matches;
otherwise some single resource must carry all required tags. -/
def matchesResourceTags (finding : SecurityHubV2Finding) (tagFilters : List ResourceTagFilter) : Bool :=
  if finding.resources.isEmpty then
    false
  else
    finding.resources.any (fun resource => resourceHasAllTags resource.tags tagFilters)

/-- `(*FilterEngine).matchesFilters`: the chain of seven early-return guards,
one per category; an empty category is skipped. -/
def matchesFilters (finding : SecurityHubV2Finding) (filters : RuleFilters) : Bool :=
  if filters.findingTypes.length > 0 && !(matchesFindingTypes finding filters.findingTypes) then
    false
  else if filters.severity.length > 0 && !(contains filters.severity finding.severity) then
    false
  else if filters.productName.length > 0 && !(contains filters.productName finding.metadata.product.name) then
    false
  else if filters.resourceTypes.length > 0 && !(matchesResourceTypes finding filters.resourceTypes) then
    false
  else if filters.resourceTags.length > 0 && !(matchesResourceTags finding filters.resourceTags) then
    false
  else if filters.accounts.length > 0 && !(contains filters.accounts finding.cloud.account.uid) then
    false
  else if filters.regions.length > 0 && !(contains filters.regions finding.cloud.region) then
    false
  else
    true

/-- `(*FilterEngine).FindMatchingRule`: walk the rules in order, skip a
disabled rule, return the first enabled rule whose filters match. The Go
function returns `(rule, matched)`; `Option` carries the same information. -/
def FindMatchingRule (rules : List AutoCloseRule) (finding : SecurityHubV2Finding) : Option AutoCloseRule :=
  match rules with
  | [] => none
  | rule :: rest =>
    if !rule.enabled then
      FindMatchingRule rest finding
    else if matchesFilters finding rule.filters then
      some rule
    else
      FindMatchingRule rest finding

/-- `(*SecurityHubV2Finding).IsAlertable`: status must be `"New"`; then a
compliance record with status `"Fail"` alerts, else severity must be one of
Critical/High/Medium. -/
def IsAlertable (shf : SecurityHubV2Finding) : Bool :=
  if shf.status != "New" then
    false
  else if (match shf.compliance with
           | some c => c.status == "Fail"
           | none => false) then
    true
  else
    contains ["Critical", "High", "Medium"] shf.severity

/-! ## Rule loading (`filters/s3_loader.go`) -/

/-- The set Go's `unicode.IsSpace` recognises in Latin-1, used by
`strings.TrimSpace` in `parseRules`. -/
def isSpaceChar (c : Char) : Bool :=
  c == ' ' || c == '\t' || c == '\n' || c == '\x0b' || c == '\x0c' || c == '\r' ||
  c == '\x85' || c == '\xa0'

/-- `strings.TrimSpace`: drop leading and trailing whitespace. -/
def trimSpace (data : List Char) : List Char :=
  (((data.dropWhile isSpaceChar).reverse).dropWhile isSpaceChar).reverse

/-- The standard library's `json.Unmarshal` targets used by `parseRules`,
modelled as an explicit codec: decoding bytes into `[]AutoCloseRule` and into
a single `AutoCloseRule`. -/
structure RuleJsonCodec where
  decodeArray : List Char → Except String (List AutoCloseRule)
  decodeSingle : List Char → Except String AutoCloseRule

/-- `filters.parseRules`: trim whitespace; empty content yields zero rules
with no error; a leading `[` selects the array decode, anything else the
single-object decode; a decode failure is wrapped and returned. -/
def parseRules (codec : RuleJsonCodec) (data : List Char) : Except String (List AutoCloseRule) :=
  match trimSpace data with
  | [] => .ok []
  | c :: rest =>
    if c == '[' then
      match codec.decodeArray (c :: rest) with
      | .error e => .error ("failed to parse rules array: " ++ e)
      | .ok rules => .ok rules
    else
      match codec.decodeSingle (c :: rest) with
      | .error e => .error ("failed to parse single rule: " ++ e)
      | .ok rule => .ok [rule]

/-- The loop body of `(*S3RulesLoader).LoadRules`: walk the listed objects in
order, skip keys without the `.json` suffix, parse each kept object and abort
on the first parse failure, concatenating the parsed rules. Each object is a
(key, body) pair; the `GetObject` fetch itself is taken to succeed. -/
def loadMatchingObjects (codec : RuleJsonCodec) :
    List (String × List Char) → Except String (List AutoCloseRule)
  | [] => .ok []
  | (key, body) :: rest =>
    if !(key.endsWith ".json") then
      loadMatchingObjects codec rest
    else
      match parseRules codec body with
      | .error e => .error e
      | .ok rules =>
        match loadMatchingObjects codec rest with
        | .error e => .error e
        | .ok more => .ok (rules ++ more)

/-- `(*S3RulesLoader).LoadRules`: an empty listing is an error; otherwise
load every `.json` object, and if zero rules were produced in total return
the no-rules-loaded error instead of an empty list. -/
def LoadRules (codec : RuleJsonCodec) (objects : List (String × List Char)) :
    Except String (List AutoCloseRule) :=
  if objects.length = 0 then
    .error "no objects found"
  else
    match loadMatchingObjects codec objects with
    | .error e => .error e
    | .ok allRules =>
      if allRules.length = 0 then
        .error "no rules loaded"
      else
        .ok allRules

/-- The rule-aggregation logic of `app.New`: start from the env-configured
rules; when an S3 bucket is configured, append the S3-loaded rules after the
env rules (or use the S3 rules alone when no env rules exist). -/
def aggregateRules (envRules s3Rules : List AutoCloseRule) (s3Configured : Bool) :
    List AutoCloseRule :=
  if s3Configured then
    if envRules.length > 0 then envRules ++ s3Rules else s3Rules
  else
    envRules

/-! ## Decision pipeline (`app`: `ParseEvent`, `Process`) -/

/-- `app.EventDetail`: the decoded event detail. Each raw finding
(`json.RawMessage`) is carried as the outcome of unmarshalling it via
`events.NewSecurityHubFinding`. -/
structure EventDetail where
  findings : List (Except String SecurityHubV2Finding)

/-- `events.SecurityHubEventInput`: event id, detail-type tag, and the
detail bytes carried as the outcome of unmarshalling them into
`EventDetail`. -/
structure SecurityHubEventInput where
  eventId : String
  detailType : String
  detailDecode : Except String EventDetail

/-- The error kinds `Process` can return, one per `return err` site. -/
inductive ProcessError where
  | unsupportedEventType (detailType : String)
  | malformedDetail (msg : String)
  | emptyFindings (eventId : String)
  | malformedFinding (msg : String)
  | actionFailure (msg : String)
  | notificationFailure (msg : String)
deriving DecidableEq, Repr

/-- `(*App).ParseEvent`: reject a detail-type other than the literal
`"Findings Imported V2"`; unmarshal the detail; reject an empty findings
array; unmarshal the first finding. -/
def ParseEvent (e : SecurityHubEventInput) : Except ProcessError SecurityHubV2Finding :=
  if e.detailType != "Findings Imported V2" then
    .error (.unsupportedEventType e.detailType)
  else
    match e.detailDecode with
    | .error msg => .error (.malformedDetail msg)
    | .ok detail =>
      match detail.findings with
      | [] => .error (.emptyFindings e.eventId)
      | raw :: _ =>
        match raw with
        | .error msg => .error (.malformedFinding msg)
        | .ok finding => .ok finding

/-- One invocation of a side-effecting collaborator, recorded in order. -/
inductive CollabCall where
  | close (uid : String) (statusId : Int) (comment : String)
  | notify (uid : String)
deriving DecidableEq, Repr

/-- The injected collaborators of `App`: the outcome of
`FindingCloser.CloseFinding` for a given finding/status/comment, whether a
notifier is configured (`a.Notifier != nil`), and the outcome of
`Notifier.Notify`. -/
structure Collaborators where
  closeResult : SecurityHubV2Finding → Int → String → Except String Unit
  notifierConfigured : Bool
  notifyResult : SecurityHubV2Finding → Except String Unit

/-- `(*App).Process`: parse the event; consult `FindMatchingRule`; on a match
close the finding (an error aborts, wrapped as an action failure), then
notify unless the rule skips notification or no notifier is configured; on no
match notify iff a notifier is configured and the finding is alertable. The
second component records every collaborator invocation in order. -/
def Process (rules : List AutoCloseRule) (collab : Collaborators)
    (evt : SecurityHubEventInput) : Except ProcessError Unit × List CollabCall :=
  match ParseEvent evt with
  | .error e => (.error e, [])
  | .ok finding =>
    match FindMatchingRule rules finding with
    | some matchedRule =>
      let closeCall :=
        CollabCall.close finding.metadata.uid matchedRule.action.statusId matchedRule.action.comment
      match collab.closeResult finding matchedRule.action.statusId matchedRule.action.comment with
      | .error msg => (.error (.actionFailure msg), [closeCall])
      | .ok _ =>
        if !matchedRule.skipNotification && collab.notifierConfigured then
          match collab.notifyResult finding with
          | .error msg =>
            (.error (.notificationFailure msg), [closeCall, CollabCall.notify finding.metadata.uid])
          | .ok _ =>
            (.ok (), [closeCall, CollabCall.notify finding.metadata.uid])
        else
          (.ok (), [closeCall])
    | none =>
      if collab.notifierConfigured && IsAlertable finding then
        match collab.notifyResult finding with
        | .error msg => (.error (.notificationFailure msg), [CollabCall.notify finding.metadata.uid])
        | .ok _ => (.ok (), [CollabCall.notify finding.metadata.uid])
      else
        (.ok (), [])

/-! ## JSON decoding of a rule (`encoding/json` on `AutoCloseRule`'s tags) -/

/-- A JSON value, as `encoding/json` sees a decoded document. -/
inductive JsonValue where
  | null
  | bool (b : Bool)
  | num (n : Int)
  | str (s : String)
  | arr (elems : List JsonValue)
  | obj (fields : List (String × JsonValue))
deriving Repr

/-- Field lookup in a decoded JSON object; with a duplicated key
`encoding/json` keeps the last value, hence the fold. -/
def lookupField (fields : List (String × JsonValue)) (key : String) : Option JsonValue :=
  fields.foldl (fun acc kv => if kv.1 == key then some kv.2 else acc) none

/-- `encoding/json` into a `bool` struct field: absent or `null` keeps the
zero value `false`; a non-bool value is a type error. -/
def getBoolField (fields : List (String × JsonValue)) (key : String) : Except String Bool :=
  match lookupField fields key with
  | none => .ok false
  | some .null => .ok false
  | some (.bool b) => .ok b
  | some _ => .error ("cannot unmarshal value into bool field " ++ key)

/-- `encoding/json` into a `string` struct field: absent or `null` keeps the
zero value `""`. -/
def getStringField (fields : List (String × JsonValue)) (key : String) : Except String String :=
  match lookupField fields key with
  | none => .ok ""
  | some .null => .ok ""
  | some (.str s) => .ok s
  | some _ => .error ("cannot unmarshal value into string field " ++ key)

/-- `encoding/json` into an `int32` struct field: absent or `null` keeps the
zero value `0`. -/
def getIntField (fields : List (String × JsonValue)) (key : String) : Except String Int :=
  match lookupField fields key with
  | none => .ok 0
  | some .null => .ok 0
  | some (.num n) => .ok n
  | some _ => .error ("cannot unmarshal value into number field " ++ key)

/-- `encoding/json` of one string-list element. -/
def decodeStringElem (v : JsonValue) : Except String String :=
  match v with
  | .str s => .ok s
  | .null => .ok ""
  | _ => .error "cannot unmarshal value into string"

/-- `encoding/json` into a `[]string` struct field: absent or `null` keeps
the zero value (nil slice). -/
def getStringListField (fields : List (String × JsonValue)) (key : String) :
    Except String (List String) :=
  match lookupField fields key with
  | none => .ok []
  | some .null => .ok []
  | some (.arr elems) => elems.mapM decodeStringElem
  | some _ => .error ("cannot unmarshal value into string-list field " ++ key)

/-- `encoding/json` of one `ResourceTagFilter` per its `name`/`value` tags;
`null` into a struct keeps the zero value. -/
def decodeResourceTagFilter (v : JsonValue) : Except String ResourceTagFilter :=
  match v with
  | .obj fields => do
    let name ← getStringField fields "name"
    let value ← getStringField fields "value"
    .ok { name := name, value := value }
  | .null => .ok { name := "", value := "" }
  | _ => .error "cannot unmarshal value into ResourceTagFilter"

/-- `encoding/json` into the `[]ResourceTagFilter` field. -/
def getTagFilterListField (fields : List (String × JsonValue)) (key : String) :
    Except String (List ResourceTagFilter) :=
  match lookupField fields key with
  | none => .ok []
  | some .null => .ok []
  | some (.arr elems) => elems.mapM decodeResourceTagFilter
  | some _ => .error ("cannot unmarshal value into tag-filter-list field " ++ key)

/-- `encoding/json` of `RuleFilters` per its struct tags; every category is
optional and defaults to the empty list. -/
def decodeRuleFilters (v : JsonValue) : Except String RuleFilters :=
  match v with
  | .obj fields => do
    let findingTypes ← getStringListField fields "finding_types"
    let severity ← getStringListField fields "severity"
    let productName ← getStringListField fields "product_name"
    let resourceTypes ← getStringListField fields "resource_types"
    let resourceTags ← getTagFilterListField fields "resource_tags"
    let accounts ← getStringListField fields "accounts"
    let regions ← getStringListField fields "regions"
    .ok { findingTypes := findingTypes, severity := severity, productName := productName,
          resourceTypes := resourceTypes, resourceTags := resourceTags,
          accounts := accounts, regions := regions }
  | .null => .ok { findingTypes := [], severity := [], productName := [], resourceTypes := [],
                   resourceTags := [], accounts := [], regions := [] }
  | _ => .error "cannot unmarshal value into RuleFilters"

/-- `encoding/json` of `RuleAction` per its `status_id`/`comment` tags. -/
def decodeRuleAction (v : JsonValue) : Except String RuleAction :=
  match v with
  | .obj fields => do
    let statusId ← getIntField fields "status_id"
    let comment ← getStringField fields "comment"
    .ok { statusId := statusId, comment := comment }
  | .null => .ok { statusId := 0, comment := "" }
  | _ => .error "cannot unmarshal value into RuleAction"

/-- `encoding/json` of a whole `AutoCloseRule` from a JSON object, per the
struct tags in the source (`name`, `enabled`, `filters`, `action`,
`skip_notification`): any absent field keeps Go's zero value, so in
particular an absent `"enabled"` decodes to `false`. -/
def decodeAutoCloseRule (fields : List (String × JsonValue)) : Except String AutoCloseRule :=
  match getStringField fields "name" with
  | .error e => .error e
  | .ok name =>
    match getBoolField fields "enabled" with
    | .error e => .error e
    | .ok enabled =>
      match (match lookupField fields "filters" with
             | none => decodeRuleFilters .null
             | some v => decodeRuleFilters v) with
      | .error e => .error e
      | .ok filters =>
        match (match lookupField fields "action" with
               | none => decodeRuleAction .null
               | some v => decodeRuleAction v) with
        | .error e => .error e
        | .ok action =>
          match getBoolField fields "skip_notification" with
          | .error e => .error e
          | .ok skipNotification =>
            .ok { name := name, enabled := enabled, filters := filters, action := action,
                  skipNotification := skipNotification }

/-! ## Concrete sample data (used to instantiate the theorems) -/

/-- A sample finding: status `New`, severity `High`, one tagged EC2
resource. -/
def exFinding : SecurityHubV2Finding :=
  { cloud := { account := { uid := "111111111111" }, region := "us-east-1" },
    compliance := none,
    findingInfo := { types := ["TTPs/Execution"] },
    metadata := { product := { name := "GuardDuty" }, uid := "finding-1" },
    resources := [{ name := "r1", region := "us-east-1",
                    tags := [{ name := "team", value := "a" }],
                    type := "AWS::EC2::Instance", uid := "arn-1" }],
    severity := "High", status := "New" }

/-- A `RuleFilters` with every category empty. -/
def exEmptyFilters : RuleFilters :=
  { findingTypes := [], severity := [], productName := [], resourceTypes := [],
    resourceTags := [], accounts := [], regions := [] }

/-- An enabled catch-all rule closing with status 5. -/
def exRule : AutoCloseRule :=
  { name := "rule-1", enabled := true, filters := exEmptyFilters,
    action := { statusId := 5, comment := "auto-closed" }, skipNotification := false }

/-- The same rule, disabled. -/
def exDisabledRule : AutoCloseRule :=
  { exRule with name := "rule-disabled", enabled := false }

/-- A well-formed event carrying `exFinding`. -/
def exEvent : SecurityHubEventInput :=
  { eventId := "evt-1", detailType := "Findings Imported V2",
    detailDecode := .ok { findings := [.ok exFinding] } }

/-- An event with an unsupported detail-type tag. -/
def exBadEvent : SecurityHubEventInput :=
  { eventId := "evt-2", detailType := "Something Else",
    detailDecode := .ok { findings := [.ok exFinding] } }

/-- Collaborators whose close and notify calls both succeed, with a notifier
configured. -/
def exCollab : Collaborators :=
  { closeResult := fun _ _ _ => .ok (), notifierConfigured := true,
    notifyResult := fun _ => .ok () }

/-- A codec that decodes any array document to `[exRule]` and any single
document to `exRule`. -/
def exCodec : RuleJsonCodec :=
  { decodeArray := fun _ => .ok [exRule], decodeSingle := fun _ => .ok exRule }

/-- A JSON rule object that omits the `"enabled"` field. -/
def exOmittedFields : List (String × JsonValue) := [("name", JsonValue.str "r")]

/-- The rule `exOmittedFields` decodes to: every omitted field at its zero
value, in particular `enabled = false`. -/
def exDecodedRule : AutoCloseRule :=
  { name := "r", enabled := false, filters := exEmptyFilters,
    action := { statusId := 0, comment := "" }, skipNotification := false }

/-! ## Helper lemmas -/

/-- The predicate `FindMatchingRule` effectively searches for: enabled and
fully matching. -/
def ruleMatches (finding : SecurityHubV2Finding) (r : AutoCloseRule) : Bool :=
  r.enabled && matchesFilters finding r.filters

theorem findMatchingRule_eq_find (rules : List AutoCloseRule) (finding : SecurityHubV2Finding) :
    FindMatchingRule rules finding = rules.find? (ruleMatches finding) := by
  induction rules with
  | nil => rfl
  | cons rule rest ih =>
    by_cases he : rule.enabled
    · by_cases hm : matchesFilters finding rule.filters
      · simp [FindMatchingRule, he, hm, List.find?_cons, ruleMatches]
      · simp [FindMatchingRule, he, hm, List.find?_cons, ruleMatches, ih]
    · simp [FindMatchingRule, he, List.find?_cons, ruleMatches, ih]

theorem findMatchingRule_enabled {rules : List AutoCloseRule} {finding : SecurityHubV2Finding}
    {r : AutoCloseRule} (h : FindMatchingRule rules finding = some r) :
    r.enabled = true ∧ matchesFilters finding r.filters = true := by
  rw [findMatchingRule_eq_find] at h
  have hp := List.find?_some h
  simpa [ruleMatches, Bool.and_eq_true] using hp

theorem find_first_index {α : Type} (p : α → Bool) (l : List α) (a : α)
    (h : l.find? p = some a) :
    ∃ i, ∃ hi : i < l.length, l.get ⟨i, hi⟩ = a ∧
      ∀ j, ∀ hj : j < l.length, j < i → p (l.get ⟨j, hj⟩) = false := by
  induction l with
  | nil => simp at h
  | cons x xs ih =>
    by_cases hp : p x
    · rw [List.find?_cons_of_pos _ hp] at h
      refine ⟨0, by simp, Option.some.inj h, ?_⟩
      intro j hj hlt
      exact absurd hlt (Nat.not_lt_zero j)
    · rw [List.find?_cons_of_neg _ hp] at h
      obtain ⟨i, hi, hget, hmin⟩ := ih h
      refine ⟨i + 1, by simpa using Nat.succ_lt_succ hi, hget, ?_⟩
      intro j hj hlt
      match j, hj with
      | 0, _ => exact (Bool.not_eq_true _).mp hp
      | Nat.succ k, hj =>
        have hk : k < xs.length := by simpa using Nat.lt_of_succ_lt_succ hj
        exact hmin k hk (Nat.lt_of_succ_lt_succ hlt)

theorem if_guard_iff {α : Type} (l : List α) (m rest : Bool) :
    ((if l.length > 0 && !m then false else rest) = true) ↔
      ((l ≠ [] → m = true) ∧ rest = true) := by
  by_cases hl : l = []
  · subst hl; simp
  · have hp : l.length > 0 := List.length_pos.mpr hl
    by_cases hm : m <;> simp [hp, hm, hl]

/-! ## Claim theorems -/

/-- C1: `FindMatchingRule` returns the enabled rule with the smallest index
whose filters match the finding, and returns no match exactly when no enabled
rule's filters match (so an empty or all-disabled rule list never matches,
and a later matching rule is never returned over an earlier enabled matching
one). -/
theorem c1_findMatchingRule_first_enabled_match
    (rules : List AutoCloseRule) (finding : SecurityHubV2Finding) :
    (FindMatchingRule rules finding = none ↔
      ∀ r ∈ rules, ¬(r.enabled = true ∧ matchesFilters finding r.filters = true)) ∧
    (∀ r, FindMatchingRule rules finding = some r →
      r.enabled = true ∧ matchesFilters finding r.filters = true ∧ r ∈ rules ∧
      ∃ i, ∃ hi : i < rules.length, rules.get ⟨i, hi⟩ = r ∧
        ∀ j, ∀ hj : j < rules.length, j < i →
          ¬((rules.get ⟨j, hj⟩).enabled = true ∧
            matchesFilters finding (rules.get ⟨j, hj⟩).filters = true)) := by
  constructor
  · rw [findMatchingRule_eq_find, List.find?_eq_none]
    constructor
    · intro h r hr hcon
      have := h r hr
      simp [ruleMatches, hcon.1, hcon.2] at this
    · intro h r hr hp
      exact h r hr (by simpa [ruleMatches, Bool.and_eq_true] using hp)
  · intro r hr
    have hfind : rules.find? (ruleMatches finding) = some r := by
      rw [← findMatchingRule_eq_find]; exact hr
    have hmem := List.mem_of_find?_eq_some hfind
    have hp := List.find?_some hfind
    rw [ruleMatches, Bool.and_eq_true] at hp
    obtain ⟨i, hi, hget, hmin⟩ := find_first_index _ _ _ hfind
    refine ⟨hp.1, hp.2, hmem, i, hi, hget, ?_⟩
    intro j hj hlt hcon
    have hfalse := hmin j hj hlt
    simp only [ruleMatches] at hfalse
    rw [hcon.1, hcon.2] at hfalse
    simp at hfalse

/-- C1 witness: a singleton list holding only a disabled rule never
matches. -/
theorem c1_witness : FindMatchingRule [exDisabledRule] exFinding = none :=
  (c1_findMatchingRule_first_enabled_match [exDisabledRule] exFinding).1.mpr (by decide)

/-- C2: `matchesFilters` is a strict conjunction over the seven filter
categories — true iff every non-empty category is satisfied — and a rule
whose categories are all empty matches every finding. -/
theorem c2_matchesFilters_conjunction (finding : SecurityHubV2Finding) (filters : RuleFilters) :
    (matchesFilters finding filters = true ↔
      ((filters.findingTypes ≠ [] → matchesFindingTypes finding filters.findingTypes = true) ∧
       (filters.severity ≠ [] → contains filters.severity finding.severity = true) ∧
       (filters.productName ≠ [] →
          contains filters.productName finding.metadata.product.name = true) ∧
       (filters.resourceTypes ≠ [] → matchesResourceTypes finding filters.resourceTypes = true) ∧
       (filters.resourceTags ≠ [] → matchesResourceTags finding filters.resourceTags = true) ∧
       (filters.accounts ≠ [] → contains filters.accounts finding.cloud.account.uid = true) ∧
       (filters.regions ≠ [] → contains filters.regions finding.cloud.region = true))) ∧
    (filters = exEmptyFilters → matchesFilters finding filters = true) := by
  constructor
  · unfold matchesFilters
    simp only [if_guard_iff, and_true]
  · intro h
    subst h
    rfl

/-- C2 witness: the all-empty filter record matches the sample finding. -/
theorem c2_witness : matchesFilters exFinding exEmptyFilters = true :=
  (c2_matchesFilters_conjunction exFinding exEmptyFilters).2 rfl

/-- C3: for a non-empty resource-tag filter list, the category is satisfied
iff a single resource of the finding carries every required (name, value)
pair; a finding with no resources never satisfies it. -/
theorem c3_resourceTags_single_resource (finding : SecurityHubV2Finding)
    (tagFilters : List ResourceTagFilter) (hne : tagFilters ≠ []) :
    (matchesResourceTags finding tagFilters = true ↔
      ∃ resource ∈ finding.resources, ∀ ft ∈ tagFilters,
        ∃ tag ∈ resource.tags, tag.name = ft.name ∧ tag.value = ft.value) ∧
    (finding.resources = [] → matchesResourceTags finding tagFilters = false) := by
  constructor
  · unfold matchesResourceTags resourceHasAllTags
    by_cases hres : finding.resources = []
    · simp [hres]
    · simp [hres, List.any_eq_true, List.all_eq_true, Bool.and_eq_true, beq_iff_eq]
  · intro h
    simp [matchesResourceTags, h]

/-- C3 witness: the sample finding's single resource carries the required
tag. -/
theorem c3_witness :
    matchesResourceTags exFinding [{ name := "team", value := "a" }] = true :=
  ((c3_resourceTags_single_resource exFinding [{ name := "team", value := "a" }]
      (by decide)).1).mpr (by decide)

/-- C4: `IsAlertable` is true iff the status is `"New"` and either the
compliance sub-record is present with status `"Fail"` or the severity is one
of Critical, High, Medium. -/
theorem c4_isAlertable_iff (shf : SecurityHubV2Finding) :
    IsAlertable shf = true ↔
      shf.status = "New" ∧
        ((∃ c, shf.compliance = some c ∧ c.status = "Fail") ∨
          shf.severity = "Critical" ∨ shf.severity = "High" ∨ shf.severity = "Medium") := by
  unfold IsAlertable contains
  cases hc : shf.compliance <;> by_cases hs : shf.status = "New" <;>
    simp [hs, hc, bne_iff_ne, List.any_eq_true, beq_iff_eq] <;> tauto

/-- C4 witness: the sample finding (status `New`, severity `High`) is
alertable. -/
theorem c4_witness : IsAlertable exFinding = true :=
  (c4_isAlertable_iff exFinding).mpr ⟨rfl, Or.inr (Or.inr (Or.inl rfl))⟩

/-- C5: when a rule matches, `Process` invokes the closer with the matched
rule's action status id and comment; a close failure is returned wrapped
with no notification attempted; on close success the notifier runs iff the
rule does not skip notification and a notifier is configured, and a notifier
failure becomes the returned error while the close call stays in the trace
(no rollback). -/
theorem c5_process_matched (rules : List AutoCloseRule) (collab : Collaborators)
    (evt : SecurityHubEventInput) (finding : SecurityHubV2Finding) (rule : AutoCloseRule)
    (hparse : ParseEvent evt = .ok finding)
    (hmatch : FindMatchingRule rules finding = some rule) :
    (∀ msg, collab.closeResult finding rule.action.statusId rule.action.comment = .error msg →
        Process rules collab evt =
          (.error (.actionFailure msg),
           [CollabCall.close finding.metadata.uid rule.action.statusId rule.action.comment])) ∧
    (collab.closeResult finding rule.action.statusId rule.action.comment = .ok () →
      ((rule.skipNotification = false ∧ collab.notifierConfigured = true →
          ((∀ msg, collab.notifyResult finding = .error msg →
              Process rules collab evt =
                (.error (.notificationFailure msg),
                 [CollabCall.close finding.metadata.uid rule.action.statusId rule.action.comment,
                  CollabCall.notify finding.metadata.uid])) ∧
           (collab.notifyResult finding = .ok () →
              Process rules collab evt =
                (.ok (),
                 [CollabCall.close finding.metadata.uid rule.action.statusId rule.action.comment,
                  CollabCall.notify finding.metadata.uid])))) ∧
       (rule.skipNotification = true ∨ collab.notifierConfigured = false →
          Process rules collab evt =
            (.ok (),
             [CollabCall.close finding.metadata.uid rule.action.statusId
                rule.action.comment])))) := by
  refine ⟨?_, ?_⟩
  · intro msg hclose
    simp [Process, hparse, hmatch, hclose]
  · intro hclose
    refine ⟨?_, ?_⟩
    · rintro ⟨hskip, hcfg⟩
      refine ⟨?_, ?_⟩
      · intro msg hnotify
        simp [Process, hparse, hmatch, hclose, hskip, hcfg, hnotify]
      · intro hnotify
        simp [Process, hparse, hmatch, hclose, hskip, hcfg, hnotify]
    · intro hcase
      rcases hcase with hskip | hcfg
      · simp [Process, hparse, hmatch, hclose, hskip]
      · simp [Process, hparse, hmatch, hclose, hcfg]

/-- C5 witness: with the sample event, catch-all rule and succeeding
collaborators, `Process` closes and then notifies. -/
theorem c5_witness :
    Process [exRule] exCollab exEvent =
      (.ok (), [CollabCall.close "finding-1" 5 "auto-closed",
                CollabCall.notify "finding-1"]) :=
  ((((c5_process_matched [exRule] exCollab exEvent exFinding exRule rfl
        (by decide)).2 rfl).1) ⟨rfl, rfl⟩).2 rfl

/-- C6: when no rule matches, the closer is never invoked; the notifier runs
(exactly once) iff a notifier is configured and the finding is alertable;
otherwise no collaborator is invoked and `Process` succeeds. -/
theorem c6_process_unmatched (rules : List AutoCloseRule) (collab : Collaborators)
    (evt : SecurityHubEventInput) (finding : SecurityHubV2Finding)
    (hparse : ParseEvent evt = .ok finding)
    (hmatch : FindMatchingRule rules finding = none) :
    (∀ uid sid comment, CollabCall.close uid sid comment ∉ (Process rules collab evt).2) ∧
    (collab.notifierConfigured = true → IsAlertable finding = true →
        (Process rules collab evt).2 = [CollabCall.notify finding.metadata.uid]) ∧
    (collab.notifierConfigured = false ∨ IsAlertable finding = false →
        Process rules collab evt = (.ok (), [])) := by
  refine ⟨?_, ?_, ?_⟩
  · intro uid sid comment
    by_cases hcond : collab.notifierConfigured && IsAlertable finding
    · cases hnr : collab.notifyResult finding <;>
        simp [Process, hparse, hmatch, hcond, hnr]
    · simp [Process, hparse, hmatch, hcond]
  · intro hcfg halert
    cases hnr : collab.notifyResult finding <;>
      simp [Process, hparse, hmatch, hcfg, halert, hnr]
  · rintro (h | h) <;> simp [Process, hparse, hmatch, h]

/-- C6 witness: with no rules, a configured notifier and the alertable
sample finding, the trace is exactly one notification. -/
theorem c6_witness : (Process [] exCollab exEvent).2 = [CollabCall.notify "finding-1"] :=
  (c6_process_unmatched [] exCollab exEvent exFinding rfl rfl).2.1 rfl (by decide)

/-- C7: an event whose detail-type differs from `"Findings Imported V2"`
makes `Process` fail with the unsupported-event-type error and an empty
collaborator trace, for every rule list, collaborator set and detail payload
(so neither parser, matcher, closer nor notifier can influence the result);
a well-typed event whose decoded detail has no findings fails with the
empty-findings error, again with no side effect. -/
theorem c7_process_validation (rules : List AutoCloseRule) (collab : Collaborators)
    (evt : SecurityHubEventInput) :
    (evt.detailType ≠ "Findings Imported V2" →
        Process rules collab evt = (.error (.unsupportedEventType evt.detailType), [])) ∧
    (∀ detail, evt.detailType = "Findings Imported V2" → evt.detailDecode = .ok detail →
        detail.findings = [] →
        Process rules collab evt = (.error (.emptyFindings evt.eventId), [])) := by
  refine ⟨?_, ?_⟩
  · intro h
    have hb : (evt.detailType != "Findings Imported V2") = true := by
      simp [bne_iff_ne, h]
    simp [Process, ParseEvent, hb]
  · intro detail h1 h2 h3
    have hb : (evt.detailType != "Findings Imported V2") = false := by
      simp [bne_iff_ne, h1]
    simp [Process, ParseEvent, hb, h2, h3]

/-- C7 witness: the sample event with detail-type `"Something Else"` is
rejected with no collaborator invoked. -/
theorem c7_witness :
    Process [exRule] exCollab exBadEvent =
      (.error (.unsupportedEventType "Something Else"), []) :=
  (c7_process_validation [exRule] exCollab exBadEvent).1 (by decide)

/-- C8: `parseRules` decodes as a rule array iff the first non-whitespace
character is `'['` and as a single rule otherwise; empty or whitespace-only
content yields zero rules without error; a parse error from any `.json`
object aborts loading; and a scan producing zero rules in total makes
`LoadRules` return the no-rules-loaded error instead of an empty list. -/
theorem c8_rule_loading (codec : RuleJsonCodec) :
    (∀ data, trimSpace data = [] → parseRules codec data = .ok []) ∧
    (∀ data c rest, trimSpace data = c :: rest →
      ((c = '[' →
          (∀ rules, codec.decodeArray (c :: rest) = .ok rules →
              parseRules codec data = .ok rules) ∧
          (∀ e, codec.decodeArray (c :: rest) = .error e →
              parseRules codec data = .error ("failed to parse rules array: " ++ e))) ∧
       (c ≠ '[' →
          (∀ rule, codec.decodeSingle (c :: rest) = .ok rule →
              parseRules codec data = .ok [rule]) ∧
          (∀ e, codec.decodeSingle (c :: rest) = .error e →
              parseRules codec data = .error ("failed to parse single rule: " ++ e))))) ∧
    (∀ key body rest e, key.endsWith ".json" = true → parseRules codec body = .error e →
        loadMatchingObjects codec ((key, body) :: rest) = .error e) ∧
    (∀ objects e, objects ≠ [] → loadMatchingObjects codec objects = .error e →
        LoadRules codec objects = .error e) ∧
    (∀ objects, objects ≠ [] → loadMatchingObjects codec objects = .ok [] →
        LoadRules codec objects = .error "no rules loaded") := by
  refine ⟨?_, ?_, ?_, ?_, ?_⟩
  · intro data htrim
    simp [parseRules, htrim]
  · intro data c rest htrim
    refine ⟨?_, ?_⟩
    · intro hc
      subst hc
      refine ⟨?_, ?_⟩
      · intro rules hdec
        simp [parseRules, htrim, hdec]
      · intro e hdec
        simp [parseRules, htrim, hdec]
    · intro hc
      have hb : (c == '[') = false := by simp [beq_iff_eq, hc]
      refine ⟨?_, ?_⟩
      · intro rule hdec
        simp [parseRules, htrim, hb, hdec]
      · intro e hdec
        simp [parseRules, htrim, hb, hdec]
  · intro key body rest e hkey hparse
    simp [loadMatchingObjects, hkey, hparse]
  · intro objects e hobj herr
    have hlen : ¬(objects.length = 0) := by simpa [List.length_eq_zero] using hobj
    simp [LoadRules, hlen, herr]
  · intro objects hobj hok
    have hlen : ¬(objects.length = 0) := by simpa [List.length_eq_zero] using hobj
    simp [LoadRules, hlen, hok]

/-- C8 witness: whitespace-only content yields zero rules without error. -/
theorem c8_witness : parseRules exCodec [' ', '\t', '\n'] = .ok [] :=
  (c8_rule_loading exCodec).1 [' ', '\t', '\n'] rfl

/-- C9: with an S3 bucket configured, the rule sequence handed to the
matching engine is exactly the inline/env rules followed by the S3-loaded
rules (plain concatenation: order preserved, nothing deduplicated or
reordered); without one it is the inline rules alone. -/
theorem c9_aggregation_order (envRules s3Rules : List AutoCloseRule) :
    aggregateRules envRules s3Rules true = envRules ++ s3Rules ∧
    aggregateRules envRules s3Rules false = envRules := by
  refine ⟨?_, rfl⟩
  cases envRules <;> simp [aggregateRules]

/-- C9 witness: a sample concatenation, inline rule first. -/
theorem c9_witness :
    aggregateRules [exRule] [exDisabledRule] true = [exRule, exDisabledRule] :=
  (c9_aggregation_order [exRule] [exDisabledRule]).1

/-- C10: a JSON rule object that omits `"enabled"` decodes with
`enabled = false`, and `FindMatchingRule` never returns a disabled rule, so
such a rule is never the matching rule for any finding. -/
theorem c10_omitted_enabled_never_matches (fields : List (String × JsonValue))
    (rule : AutoCloseRule) (rules : List AutoCloseRule) (finding : SecurityHubV2Finding)
    (hdec : decodeAutoCloseRule fields = .ok rule)
    (homit : lookupField fields "enabled" = none) :
    rule.enabled = false ∧ FindMatchingRule rules finding ≠ some rule := by
  have henabled : rule.enabled = false := by
    unfold decodeAutoCloseRule at hdec
    simp only [getBoolField, homit] at hdec
    split at hdec
    · exact absurd hdec (by simp)
    · split at hdec
      · exact absurd hdec (by simp)
      · split at hdec
        · exact absurd hdec (by simp)
        · split at hdec
          · exact absurd hdec (by simp)
          · have h := Except.ok.inj hdec
            rw [← h]
  refine ⟨henabled, ?_⟩
  intro hfound
  have := (findMatchingRule_enabled hfound).1
  rw [henabled] at this
  exact Bool.false_ne_true this

/-- C10 witness: the decode of `exOmittedFields` is disabled and is never
returned by the matcher. -/
theorem c10_witness :
    exDecodedRule.enabled = false ∧
      FindMatchingRule [exDecodedRule] exFinding ≠ some exDecodedRule :=
  c10_omitted_enabled_never_matches exOmittedFields exDecodedRule [exDecodedRule]
    exFinding rfl rfl

end SecBot
